import Mathlib

/-!
Shallow embedding of `src/wikidata.py`: a cache-aware batched Wikidata
fetcher (`get_entities` and its nested helpers), a dependency extractor
(`Entity.load_dependencies`) and a claim normalizer (`Entity.parse_snak`,
driving the `Entity.claims` generator).

Conventions of the embedding:
* JSON documents are modelled by the `Doc` structure, restricted to the
  fields the code reads (`id`, `labels`, `claims`).
* Python dictionaries preserving insertion order are association lists;
  a dict lookup is `alookup` (first match).  The on-disk cache directory is
  also an association list, newest record first, because
  `store_entites_locally` overwrites the file of an id it writes again.
* Python exceptions (`KeyError`, `TypeError`, `FileNotFoundError`) become
  the `Except Err` monad.
* The remote API is an oracle `Remote : String → Option Doc`; `none` means
  the response carries no document for that id.
-/

namespace Wikidata

/-- Module-level constant `LANGUAGE = "en"`. -/
def LANGUAGE : String := "en"

/-- Module-level constant `WIKIBASE_ITEM_DATA_TYPE = "wikibase-item"`. -/
def WIKIBASE_ITEM_DATA_TYPE : String := "wikibase-item"

/-- Module-level constant `WIKIBASE_API_MAX_IDS = 50`. -/
def WIKIBASE_API_MAX_IDS : Nat := 50

/-- Module-level constant `INTERESTING_DATA_TYPES`. -/
def INTERESTING_DATA_TYPES : List String :=
  ["time", "quantity", "string", WIKIBASE_ITEM_DATA_TYPE]

/-- The JSON value found under `snak["datavalue"]["value"]`: either a plain
JSON string (the `string` datatype) or one of the records used by the
item / quantity / time datatypes, restricted to the keys the code reads. -/
inductive DVV where
  | str (s : String)
  | itemRec (id : String)
  | quantityRec (amount : String)
  | timeRec (time : String)
deriving DecidableEq

/-- One record of the `labels` mapping (`{"language": ..., "value": ...}`);
`value` is `Option` because the code reads it with `.get("value")`. -/
structure LangValue where
  value : Option String
deriving DecidableEq

/-- A snak.  `datavalue` is `none` when the JSON record has no `datavalue`
key (as for `snaktype` `novalue` / `somevalue`). -/
structure Snak where
  property : String
  datatype : String
  snaktype : String
  datavalue : Option DVV
deriving DecidableEq

/-- A statement: the `mainsnak` plus the optional `qualifiers` dict and the
optional `qualifiers-order` list, `none` when the JSON key is absent. -/
structure Statement where
  mainsnak : Snak
  qualifiers : Option (List (String × List Snak))
  qualifiersOrder : Option (List String)
deriving DecidableEq

/-- An entity document, restricted to the fields the embedded code reads. -/
structure Doc where
  id : String
  labels : List (String × LangValue)
  claims : List (String × List Statement)
deriving DecidableEq, Inhabited

/-- Python exceptions raised by the embedded code. -/
inductive Err where
  | keyError
  | typeError
  | fileNotFoundError
deriving DecidableEq

/-- First-match lookup in an association list; embeds a Python dict lookup,
and also the id-keyed cache directory (a later file write shadows an earlier
one because `store_entites_locally` prepends below). -/
def alookup {α : Type} : List (String × α) → String → Option α
  | [], _ => none
  | (k, v) :: rest, key => if k = key then some v else alookup rest key

/-- The cache directory: one record per written id, newest first. -/
abbrev Cache := List (String × Doc)

/-- The remote API: identifier to returned document, `none` when the
response carries no document for that id. -/
abbrev Remote := String → Option Doc

/-- Embeds `store_entites_locally`: each entity is written to the file named
by its own `entity["id"]`, overwriting any previous record of that id. -/
def store_entites_locally (cache : Cache) (entities : List Doc) : Cache :=
  entities.foldl (fun c e => (e.id, e) :: c) cache

/-- Embeds `fetch_batch`: one request carrying a chunk of ids; every document
the remote returns for the chunk is persisted via `store_entites_locally`. -/
def fetch_batch (remote : Remote) (cache : Cache) (chunk : List String) : Cache :=
  store_entites_locally cache (chunk.filterMap remote)

/-- Embeds `batches`: the slice `ids[ii : ii + WIKIBASE_API_MAX_IDS]` for
`ii in range(0, len(ids), WIKIBASE_API_MAX_IDS)`.  A Python `range` from 0
to `n` with step `k` enumerates `⌈n / k⌉` indices `0, k, 2k, ...`, and the
slice is `(ids.drop ii).take k`. -/
def batches (ids : List String) : List (List String) :=
  (List.range' 0 ((ids.length + WIKIBASE_API_MAX_IDS - 1) / WIKIBASE_API_MAX_IDS)
      WIKIBASE_API_MAX_IDS).map
    (fun ii => (ids.drop ii).take WIKIBASE_API_MAX_IDS)

/-- Embeds `get_non_local_ids`: the ids whose cache record is absent, in
input order, one occurrence per input occurrence. -/
def get_non_local_ids (cache : Cache) (ids : List String) : List String :=
  ids.filter (fun i => (alookup cache i).isNone)

/-- Embeds `get_local_entities`: read every id back from the cache in order;
opening a missing record raises `FileNotFoundError`. -/
def get_local_entities (cache : Cache) : List String → Except Err (List Doc)
  | [] => .ok []
  | i :: rest =>
    match alookup cache i with
    | none => .error .fileNotFoundError
    | some d => (get_local_entities cache rest).map (fun es => d :: es)

/-- Result of one `get_entities` call: the returned entities, the cache as
left on disk, and the chunks sent to the remote API (one request each). -/
structure FetchResult where
  entities : Except Err (List Doc)
  cache : Cache
  requests : List (List String)

/-- Embeds `get_entities`.  The Python line
`itertools.chain(*(fetch_batch(chunk) for chunk in batches(nonlocal_ids)))`
runs every `fetch_batch(chunk)` eagerly and in order: the `*`-unpacking of
the generator consumes it to completion before `chain` is even called, so
each chunk's fetch executes and persists before `get_local_entities` reads
the ids back (the discarded `chain` object itself carries no pending
work). -/
def get_entities (remote : Remote) (cache : Cache) (ids : List String) : FetchResult :=
  let nonlocal_ids := get_non_local_ids cache ids
  let reqs := batches nonlocal_ids
  let cache1 := reqs.foldl (fetch_batch remote) cache
  ⟨get_local_entities cache1 ids, cache1, reqs⟩

/-! ### Chunking lemmas -/

/-- Concatenating the consecutive slices of width `WIKIBASE_API_MAX_IDS`
starting at `s` recovers `(l.drop s).take (WIKIBASE_API_MAX_IDS * k)`. -/
theorem flatten_slices (k : Nat) : ∀ (s : Nat) (l : List String),
    ((List.range' s k WIKIBASE_API_MAX_IDS).map
      (fun ii => (l.drop ii).take WIKIBASE_API_MAX_IDS)).flatten
    = (l.drop s).take (WIKIBASE_API_MAX_IDS * k) := by
  induction k with
  | zero => intro s l; simp
  | succ k ih =>
    intro s l
    rw [List.range'_succ, List.map_cons, List.flatten_cons, ih]
    rw [show l.drop (s + WIKIBASE_API_MAX_IDS) = (l.drop s).drop WIKIBASE_API_MAX_IDS by
      rw [List.drop_drop, Nat.add_comm]]
    rw [← List.take_add]
    congr 1
    simp [WIKIBASE_API_MAX_IDS]
    ring

/-- The chunks concatenate back to the input sequence. -/
theorem batches_flatten (ids : List String) : (batches ids).flatten = ids := by
  rw [batches, flatten_slices, List.drop_zero]
  apply List.take_of_length_le
  simp [WIKIBASE_API_MAX_IDS]
  omega

/-- Exactly `⌈n / WIKIBASE_API_MAX_IDS⌉` chunks are produced. -/
theorem batches_length (ids : List String) :
    (batches ids).length
      = (ids.length + WIKIBASE_API_MAX_IDS - 1) / WIKIBASE_API_MAX_IDS := by
  simp [batches]

/-- Every chunk holds at most `WIKIBASE_API_MAX_IDS` identifiers. -/
theorem batches_chunk_le (ids : List String) :
    ∀ c ∈ batches ids, c.length ≤ WIKIBASE_API_MAX_IDS := by
  intro c hc
  simp only [batches, List.mem_map] at hc
  obtain ⟨ii, -, rfl⟩ := hc
  exact List.length_take_le _ _

/-- On duplicate-free input the chunks are pairwise disjoint. -/
theorem batches_disjoint (ids : List String) (h : ids.Nodup) :
    (batches ids).Pairwise List.Disjoint := by
  have hj : (batches ids).flatten.Nodup := by rw [batches_flatten]; exact h
  exact (List.nodup_flatten.mp hj).2

/-! ### Cache lemmas -/

/-- A write batch containing no record keyed `i` leaves the lookup of `i`
unchanged. -/
theorem alookup_store_of_not_mem (entities : List Doc) :
    ∀ (cache : Cache) (i : String), (∀ e ∈ entities, e.id ≠ i) →
      alookup (store_entites_locally cache entities) i = alookup cache i := by
  induction entities with
  | nil => intro cache i _; rfl
  | cons e es ih =>
    intro cache i h
    show alookup (store_entites_locally ((e.id, e) :: cache) es) i = _
    rw [ih ((e.id, e) :: cache) i (fun e' he' => h e' (List.mem_cons_of_mem e he'))]
    simp [alookup, h e (List.mem_cons_self e es)]

/-- If every record of the batch keyed `i` is the document `d` and `d` is in
the batch under key `i`, then after the writes the lookup of `i` is `d`. -/
theorem alookup_store_of_mem (entities : List Doc) :
    ∀ (cache : Cache) (i : String) (d : Doc),
      (∀ e ∈ entities, e.id = i → e = d) → d ∈ entities → d.id = i →
      alookup (store_entites_locally cache entities) i = some d := by
  induction entities with
  | nil => intro _ _ _ _ hmem _; cases hmem
  | cons e es ih =>
    intro cache i d huniq hmem hid
    show alookup (store_entites_locally ((e.id, e) :: cache) es) i = some d
    by_cases hes : d ∈ es
    · exact ih ((e.id, e) :: cache) i d
        (fun e' he' => huniq e' (List.mem_cons_of_mem e he')) hes hid
    · have hed : e = d := by
        rcases List.mem_cons.mp hmem with h | h
        · exact h.symm
        · exact absurd h hes
      subst hed
      have hnone : ∀ e' ∈ es, e'.id ≠ i := by
        intro e' he' hcontra
        exact hes (huniq e' (List.mem_cons_of_mem e he') hcontra ▸ he')
      rw [alookup_store_of_not_mem es ((e.id, e) :: cache) i hnone]
      simp [alookup, hid]

/-- Lookup after one `fetch_batch`: an id of the chunk for which the remote
returns a document now maps to that document; every other id is untouched.
Needs the remote to return documents under their own id. -/
theorem alookup_fetch_batch (remote : Remote)
    (hremote : ∀ i d, remote i = some d → d.id = i)
    (cache : Cache) (chunk : List String) (i : String) :
    alookup (fetch_batch remote cache chunk) i =
      if i ∈ chunk ∧ (remote i).isSome then remote i else alookup cache i := by
  have hkey : ∀ e ∈ chunk.filterMap remote, e.id = i → remote i = some e := by
    intro e he hei
    obtain ⟨j, _, hj⟩ := List.mem_filterMap.mp he
    have hji : j = i := by rw [← hremote j e hj, hei]
    rw [← hji]
    exact hj
  by_cases hc : i ∈ chunk ∧ (remote i).isSome
  · obtain ⟨hmem, hsome⟩ := hc
    obtain ⟨d, hd⟩ := Option.isSome_iff_exists.mp hsome
    rw [if_pos ⟨hmem, hsome⟩, hd]
    apply alookup_store_of_mem
    · intro e he hei
      have := hkey e he hei
      rw [hd] at this
      exact (Option.some_inj.mp this).symm
    · exact List.mem_filterMap.mpr ⟨i, hmem, hd⟩
    · exact hremote i d hd
  · rw [if_neg hc]
    apply alookup_store_of_not_mem
    intro e he hei
    obtain ⟨j, hjmem, hj⟩ := List.mem_filterMap.mp he
    have hji : j = i := by rw [← hei]; exact (hremote j e hj).symm
    subst hji
    exact hc ⟨hjmem, by simp [hj]⟩

/-- Lookup after executing a sequence of chunk fetches: an id some chunk
requested and the remote answered now maps to the remote's document; every
other id keeps its previous record. -/
theorem alookup_foldl_fetch (remote : Remote)
    (hremote : ∀ i d, remote i = some d → d.id = i)
    (chunks : List (List String)) :
    ∀ (cache : Cache) (i : String),
      alookup (chunks.foldl (fetch_batch remote) cache) i =
        if i ∈ chunks.flatten ∧ (remote i).isSome then remote i
        else alookup cache i := by
  induction chunks with
  | nil => intro cache i; simp
  | cons c cs ih =>
    intro cache i
    show alookup (cs.foldl (fetch_batch remote) (fetch_batch remote cache c)) i = _
    rw [ih, alookup_fetch_batch remote hremote]
    by_cases h1 : (remote i).isSome
    · by_cases h2 : i ∈ c <;> by_cases h3 : i ∈ cs.flatten <;>
        simp [h1, h2, h3, List.flatten_cons]
    · simp [h1]

/-! ### C1–C4 theorems -/

/-- C1: in every `get_entities` call, each requested identifier missing from
the cache is sent to the remote (the executed per-chunk requests cover
exactly the missing list), and every such identifier the remote answers is
persisted in the cache the call then reads the results back from.  The
chunked fetch generator is consumed to completion: its effects are all
present in the final cache. -/
theorem get_entities_fetches_missing_before_read
    (remote : Remote) (cache : Cache) (ids : List String)
    (hremote : ∀ i d, remote i = some d → d.id = i) :
    (get_entities remote cache ids).requests.flatten = get_non_local_ids cache ids
    ∧ ∀ i ∈ ids, alookup cache i = none → ∀ d, remote i = some d →
        alookup (get_entities remote cache ids).cache i = some d := by
  constructor
  · exact batches_flatten (get_non_local_ids cache ids)
  · intro i hi hnone d hd
    show alookup ((batches (get_non_local_ids cache ids)).foldl
      (fetch_batch remote) cache) i = some d
    rw [alookup_foldl_fetch remote hremote]
    have hmem : i ∈ (batches (get_non_local_ids cache ids)).flatten := by
      rw [batches_flatten, get_non_local_ids, List.mem_filter]
      exact ⟨hi, by simp [hnone]⟩
    rw [if_pos ⟨hmem, by simp [hd]⟩]
    exact hd

/-- A document fetched home for the witness of C1. -/
def docQ1 : Doc := ⟨"Q1", [], []⟩

/-- A second document for the resolver witnesses. -/
def docQ2 : Doc := ⟨"Q2", [], []⟩

/-- A two-entity remote oracle used by the resolver witnesses. -/
def remote2 : Remote := fun i =>
  if i = "Q1" then some docQ1 else if i = "Q2" then some docQ2 else none

/-- The oracle `remote2` returns documents under their own id. -/
theorem remote2_id : ∀ i d, remote2 i = some d → d.id = i := by
  intro i d h
  unfold remote2 at h
  split at h
  · cases h; simp [docQ1, *]
  · split at h
    · cases h; simp [docQ2, *]
    · cases h

/-- Witness for C1: starting from an empty cache, requesting `Q1` leaves its
fetched document in the cache. -/
theorem get_entities_fetches_missing_before_read_witness :
    alookup (get_entities remote2 [] ["Q1"]).cache "Q1" = some docQ1 :=
  (get_entities_fetches_missing_before_read remote2 [] ["Q1"] remote2_id).2
    "Q1" (by simp) rfl docQ1 rfl

/-- C2 counterexample: with an empty cache, the identifier `Q1` occurring
twice in the input survives twice in the missing list — `get_non_local_ids`
performs no deduplication — and consequently `Q1` is carried twice by the
fetch requests of a single resolver call. -/
theorem get_non_local_ids_duplicate_fetch :
    get_non_local_ids [] ["Q1", "Q1"] = ["Q1", "Q1"]
    ∧ (get_entities (fun _ => none) [] ["Q1", "Q1"]).requests.flatten.count "Q1" = 2
    ∧ ¬ (get_non_local_ids [] ["Q1", "Q1"]).Nodup :=
  ⟨rfl, by decide, by decide⟩

/-- C2 amended: the missing list preserves first-to-last input order (it is
a sublist of the input) and keeps exactly the input occurrences of every
identifier absent from the cache — without any deduplication, so an absent
identifier occurring twice in the input is listed (and later fetched)
twice. -/
theorem get_non_local_ids_order_no_dedup (cache : Cache) (ids : List String) :
    List.Sublist (get_non_local_ids cache ids) ids
    ∧ (∀ i, i ∈ get_non_local_ids cache ids ↔ i ∈ ids ∧ alookup cache i = none)
    ∧ (∀ i, (get_non_local_ids cache ids).count i =
        if alookup cache i = none then ids.count i else 0) := by
  refine ⟨List.filter_sublist ids, fun i => ?_, fun i => ?_⟩
  · rw [get_non_local_ids, List.mem_filter]
    simp [Option.isNone_iff_eq_none]
  · rw [get_non_local_ids]
    by_cases h : alookup cache i = none
    · rw [if_pos h]
      exact List.count_filter (by simp [h])
    · rw [if_neg h, List.count_eq_zero]
      intro hmem
      exact h (by simpa [Option.isNone_iff_eq_none] using (List.mem_filter.mp hmem).2)

/-- Reading a list of ids back from a cache that maps each of them to `f i`
yields exactly `ids.map f`. -/
theorem get_local_entities_map (cache : Cache) (f : String → Doc) :
    ∀ ids : List String, (∀ i ∈ ids, alookup cache i = some (f i)) →
      get_local_entities cache ids = .ok (ids.map f) := by
  intro ids
  induction ids with
  | nil => intro _; rfl
  | cons i rest ih =>
    intro h
    simp only [get_local_entities, h i (List.mem_cons_self i rest),
      ih (fun j hj => h j (List.mem_cons_of_mem i hj)), List.map_cons]
    rfl

/-- Witness for amended C2: against a cache holding only `Q2`, the input
`[Q1, Q2, Q1]` yields a missing list carrying `Q1` twice. -/
theorem get_non_local_ids_order_no_dedup_witness :
    (get_non_local_ids [("Q2", docQ2)] ["Q1", "Q2", "Q1"]).count "Q1" = 2 := by
  rw [(get_non_local_ids_order_no_dedup [("Q2", docQ2)] ["Q1", "Q2", "Q1"]).2.2 "Q1"]
  decide

/-- C3: when every requested identifier is obtainable (already cached or
answered by the remote), `get_entities` returns exactly one document per
input identifier, in input order; the output is the input mapped through a
fixed per-identifier document assignment, so duplicated inputs yield the
same document duplicated, regardless of cache/fetch interleaving. -/
theorem get_entities_one_doc_per_id_in_order
    (remote : Remote) (cache : Cache) (ids : List String)
    (hremote : ∀ i d, remote i = some d → d.id = i)
    (hobt : ∀ i ∈ ids, (alookup cache i).isSome ∨ (remote i).isSome) :
    ∃ f : String → Doc,
      (get_entities remote cache ids).entities = .ok (ids.map f)
      ∧ ∀ i ∈ ids, alookup cache i = some (f i)
          ∨ (alookup cache i = none ∧ remote i = some (f i)) := by
  classical
  set f : String → Doc := fun i =>
    match alookup cache i with
    | some d => d
    | none => (remote i).getD default with hf
  have hpoint : ∀ i ∈ ids,
      alookup ((batches (get_non_local_ids cache ids)).foldl
        (fetch_batch remote) cache) i = some (f i) := by
    intro i hi
    rw [alookup_foldl_fetch remote hremote]
    cases hcache : alookup cache i with
    | some d =>
      have hnc : ¬ (i ∈ (batches (get_non_local_ids cache ids)).flatten
          ∧ (remote i).isSome) := by
        rintro ⟨hmem, -⟩
        rw [batches_flatten, get_non_local_ids, List.mem_filter, hcache] at hmem
        simp at hmem
      rw [if_neg hnc, hf]
      simp [hcache]
    | none =>
      have hsome : (remote i).isSome := by
        rcases hobt i hi with h | h
        · rw [hcache] at h; cases h
        · exact h
      obtain ⟨d, hd⟩ := Option.isSome_iff_exists.mp hsome
      have hmem : i ∈ (batches (get_non_local_ids cache ids)).flatten := by
        rw [batches_flatten, get_non_local_ids, List.mem_filter]
        exact ⟨hi, by simp [hcache]⟩
      rw [if_pos ⟨hmem, hsome⟩, hf]
      simp [hcache, hd]
  refine ⟨f, ?_, ?_⟩
  · exact get_local_entities_map _ f ids hpoint
  · intro i hi
    cases hcache : alookup cache i with
    | some d => left; rw [hf]; simp [hcache]
    | none =>
      right
      refine ⟨rfl, ?_⟩
      have hsome : (remote i).isSome := by
        rcases hobt i hi with h | h
        · rw [hcache] at h; cases h
        · exact h
      obtain ⟨d, hd⟩ := Option.isSome_iff_exists.mp hsome
      rw [hf]
      simp [hcache, hd]

/-- Witness for C3: resolving `[Q1, Q2, Q1]` against `remote2` from an empty
cache returns `[docQ1, docQ2, docQ1]` — duplicates produce duplicates, in
input order. -/
theorem get_entities_one_doc_per_id_in_order_witness :
    (get_entities remote2 [] ["Q1", "Q2", "Q1"]).entities
      = .ok [docQ1, docQ2, docQ1] := by
  obtain ⟨f, h1, h2⟩ := get_entities_one_doc_per_id_in_order remote2 []
    ["Q1", "Q2", "Q1"] remote2_id
    (by
      intro i hi
      right
      rcases (by simpa using hi : i = "Q1" ∨ i = "Q2" ∨ i = "Q1") with rfl | rfl | rfl
        <;> rfl)
  have e1 : f "Q1" = docQ1 := by
    rcases h2 "Q1" (by simp) with h | ⟨-, h⟩
    · cases h
    · rw [show remote2 "Q1" = some docQ1 from rfl] at h
      exact (Option.some_inj.mp h).symm
  have e2 : f "Q2" = docQ2 := by
    rcases h2 "Q2" (by simp) with h | ⟨-, h⟩
    · cases h
    · rw [show remote2 "Q2" = some docQ2 from rfl] at h
      exact (Option.some_inj.mp h).symm
  rw [h1, List.map_cons, List.map_cons, List.map_cons, List.map_nil, e1, e2]

/-- C4: `batches` partitions the identifier sequence into exactly
`⌈N / 50⌉` consecutive chunks of at most 50 identifiers whose concatenation
is the input (on duplicate-free input the chunks are therefore pairwise
disjoint and cover exactly the requested set), and `get_entities` issues one
request per chunk of its missing list. -/
theorem batches_partition_spec (ids : List String) :
    (batches ids).length
      = (ids.length + WIKIBASE_API_MAX_IDS - 1) / WIKIBASE_API_MAX_IDS
    ∧ (∀ c ∈ batches ids, c.length ≤ WIKIBASE_API_MAX_IDS)
    ∧ (batches ids).flatten = ids
    ∧ (ids.Nodup → (batches ids).Pairwise List.Disjoint)
    ∧ ∀ (remote : Remote) (cache : Cache) (rids : List String),
        (get_entities remote cache rids).requests.length
          = ((get_non_local_ids cache rids).length + WIKIBASE_API_MAX_IDS - 1)
              / WIKIBASE_API_MAX_IDS :=
  ⟨batches_length ids, batches_chunk_le ids, batches_flatten ids,
   batches_disjoint ids,
   fun _ cache rids => batches_length (get_non_local_ids cache rids)⟩

/-- Witness for C4 at a concrete duplicate-free input, instantiating also
the `Nodup → Pairwise Disjoint` implication. -/
theorem batches_partition_spec_witness :
    (batches ["a", "b", "c"]).flatten = ["a", "b", "c"]
    ∧ (batches ["a", "b", "c"]).length = 1
    ∧ (batches ["a", "b", "c"]).Pairwise List.Disjoint :=
  ⟨(batches_partition_spec ["a", "b", "c"]).2.2.1,
   by decide,
   (batches_partition_spec ["a", "b", "c"]).2.2.2.1 (by decide)⟩

/-! ### The Entity layer: snak values, normalization and dependencies -/

/-- A Python value as it can appear in a normalized claim tuple: a `str`,
the Python `None` (a label that is absent), or a still-unextracted JSON
record. -/
inductive PyVal where
  | str (s : String)
  | pynone
  | record (v : DVV)
deriving DecidableEq

/-- How `value = snak["datavalue"]["value"]` lands in Python: a JSON string
is a Python `str`; the item/quantity/time records stay dicts. -/
def DVV.toPy : DVV → PyVal
  | .str s => .str s
  | v => .record v

/-- A label read (`Optional[str]`) used as a value: `None` or the text. -/
def labelToPy : Option String → PyVal
  | some s => .str s
  | none => .pynone

/-- Subscript `value["id"]` on a datavalue: `KeyError` on a record without
that key, `TypeError` when the value is a plain string. -/
def DVV.subscript_id : DVV → Except Err String
  | .itemRec i => .ok i
  | .str _ => .error .typeError
  | _ => .error .keyError

/-- Subscript `value["amount"]`. -/
def DVV.subscript_amount : DVV → Except Err String
  | .quantityRec a => .ok a
  | .str _ => .error .typeError
  | _ => .error .keyError

/-- Subscript `value["time"]`. -/
def DVV.subscript_time : DVV → Except Err String
  | .timeRec t => .ok t
  | .str _ => .error .typeError
  | _ => .error .keyError

/-- Subscript chain `snak["datavalue"]["value"]`: `KeyError` when the snak
record has no `datavalue` key. -/
def Snak.datavalue_value (s : Snak) : Except Err DVV :=
  match s.datavalue with
  | some v => .ok v
  | none => .error .keyError

/-- One normalized `(property, value)` pair; the property label is
`Optional[str]`. -/
abbrev ParsedClaim := Option String × PyVal

namespace Entity

/-- Embeds the `Entity.label` accessor:
`self.data["labels"].get(LANGUAGE, {}).get("value")`. -/
def label (d : Doc) : Option String :=
  (alookup d.labels LANGUAGE).bind LangValue.value

/-- Embeds the constructor load `list(get_entities([entity_id]))[0]`, read
against the composite store (cache plus remote; cache records are
write-once, so a single association list models everything one resolution
can observe).  A missing id surfaces as the `FileNotFoundError` that
`get_local_entities` raises on the miss. -/
def load_entity (store : List (String × Doc)) (entity_id : String) : Except Err Doc :=
  match alookup store entity_id with
  | some d => .ok d
  | none => .error .fileNotFoundError

/-- The `Entity(X).label` idiom `parse_snak` uses for property and item
labels. -/
def entity_label (store : List (String × Doc)) (i : String) : Except Err (Option String) :=
  (load_entity store i).map label

/-- Embeds the datatype dispatch on `value` inside `Entity.parse_snak`.
Note the dead `data_type == "amount"` comparison transcribed as in the
source: the allow-list names the numeric datatype `quantity`, so a quantity
snak falls through to the final else and keeps its raw record. -/
def parse_snak_value (store : List (String × Doc)) (snak : Snak) (value : DVV) :
    Except Err PyVal :=
  if snak.datatype = WIKIBASE_ITEM_DATA_TYPE then do
    let i ← value.subscript_id
    let lbl ← entity_label store i
    pure (labelToPy lbl)
  else if snak.datatype = "amount" then do
    let a ← value.subscript_amount
    pure (PyVal.str a)
  else if snak.datatype = "time" then do
    let t ← value.subscript_time
    pure (PyVal.str t)
  else pure value.toPy

/-- Embeds `Entity.parse_snak`: `None` for an uninteresting datatype or a
non-`value` snaktype; otherwise the property label is resolved, the raw
`datavalue.value` is read and refined by `parse_snak_value`. -/
def parse_snak (store : List (String × Doc)) (snak : Snak) :
    Except Err (Option ParsedClaim) :=
  if snak.datatype ∉ INTERESTING_DATA_TYPES then .ok none
  else if snak.snaktype ≠ "value" then .ok none
  else do
    let property ← entity_label store snak.property
    let value ← snak.datavalue_value
    let value ← parse_snak_value store snak value
    pure (some (property, value))

/-- Embeds the qualifier branch of one `load_dependencies` loop iteration:
snaktype-guarded, property id appended, referenced item id appended for the
item datatype. -/
def load_dep_qualifier (deps : List String) (q : Snak) : Except Err (List String) :=
  if q.snaktype ≠ "value" then .ok deps
  else do
    let deps := deps ++ [q.property]
    if q.datatype = WIKIBASE_ITEM_DATA_TYPE then do
      let v ← q.datavalue_value
      let i ← v.subscript_id
      pure (deps ++ [i])
    else pure deps

/-- Embeds the inner `for qualifier in qualifiers` loop of
`load_dependencies`. -/
def load_dep_qualifiers_loop : List Snak → List String → Except Err (List String)
  | [], deps => .ok deps
  | q :: rest, deps => do
    let deps' ← load_dep_qualifier deps q
    load_dep_qualifiers_loop rest deps'

/-- Embeds the body of the statement loop of `load_dependencies`: skip an
uninteresting mainsnak entirely (qualifiers included); otherwise append the
mainsnak's property, read `mainsnak["datavalue"]["value"]["id"]`
unconditionally for the item datatype (there is no snaktype guard on the
mainsnak), then walk `claim.get("qualifiers", {})` flattened. -/
def load_dep_statement (deps : List String) (claim : Statement) :
    Except Err (List String) := do
  let snak := claim.mainsnak
  let data_type := snak.datatype
  if data_type ∉ INTERESTING_DATA_TYPES then pure deps
  else do
    let deps := deps ++ [snak.property]
    let deps ←
      if data_type = WIKIBASE_ITEM_DATA_TYPE then do
        let v ← snak.datavalue_value
        let i ← v.subscript_id
        pure (deps ++ [i])
      else pure deps
    let qualifiers := ((claim.qualifiers.getD []).map Prod.snd).flatten
    load_dep_qualifiers_loop qualifiers deps

/-- Embeds `for claim in properties` of `load_dependencies`. -/
def load_dep_statements_loop : List Statement → List String → Except Err (List String)
  | [], deps => .ok deps
  | claim :: rest, deps => do
    let deps' ← load_dep_statement deps claim
    load_dep_statements_loop rest deps'

/-- Embeds `for properties in claims.values()` of `load_dependencies`. -/
def load_dep_groups_loop :
    List (String × List Statement) → List String → Except Err (List String)
  | [], deps => .ok deps
  | (_, stmts) :: rest, deps => do
    let deps' ← load_dep_statements_loop stmts deps
    load_dep_groups_loop rest deps'

/-- Embeds `Entity.load_dependencies` up to the final resolver call: the
dependency list accumulated over the whole document, which the method then
hands to `get_entities(dependencies)` in one single call. -/
def load_dependencies (d : Doc) : Except Err (List String) :=
  load_dep_groups_loop d.claims []

/-- One normalized claim as yielded by the `claims` generator: a
`(property, value)` pair, or a `(property, value, qualifiers)` triple. -/
inductive Rendered where
  | pair (c : ParsedClaim)
  | triple (c : ParsedClaim) (qs : List ParsedClaim)
deriving DecidableEq

/-- Embeds the dict lookup `claim["qualifiers"][qualifier_id]`: `KeyError`
when the `qualifiers` key or the qualifier id is absent. -/
def qualifier_snaks (claim : Statement) (qualifier_id : String) :
    Except Err (List Snak) :=
  match claim.qualifiers with
  | none => .error .keyError
  | some qd =>
    match alookup qd qualifier_id with
    | some snaks => .ok snaks
    | none => .error .keyError

/-- Embeds the inner `for qualifier_snak in snaks` loop of `Entity.claims`:
parse each snak, append the non-`None` results to the accumulated qualifier
list. -/
def claims_snaks_loop (store : List (String × Doc)) :
    List Snak → List ParsedClaim → Except Err (List ParsedClaim)
  | [], acc => .ok acc
  | s :: rest, acc => do
    let q ← parse_snak store s
    claims_snaks_loop store rest
      (match q with
       | some c => acc ++ [c]
       | none => acc)

/-- Embeds the `for qualifier_id in claim.get("qualifiers-order", [])` loop
of `Entity.claims`. -/
def claims_qualifiers_loop (store : List (String × Doc)) (claim : Statement) :
    List String → List ParsedClaim → Except Err (List ParsedClaim)
  | [], acc => .ok acc
  | qid :: rest, acc => do
    let snaks ← qualifier_snaks claim qid
    let acc' ← claims_snaks_loop store snaks acc
    claims_qualifiers_loop store claim rest acc'

/-- Embeds the generator body of `Entity.claims`: normalize the mainsnak
first and skip the statement when it is `None` (the qualifiers are then
never touched); otherwise collect the statement's surviving qualifiers and
yield a pair, upgraded to a triple exactly when the qualifier list is
non-empty. -/
def claims_loop (store : List (String × Doc)) :
    List Statement → Except Err (List Rendered)
  | [] => .ok []
  | claim :: rest => do
    let snak ← parse_snak store claim.mainsnak
    match snak with
    | none => claims_loop store rest
    | some c => do
      let qualifiers ← claims_qualifiers_loop store claim
        (claim.qualifiersOrder.getD []) []
      let r := if qualifiers.isEmpty then Rendered.pair c
               else Rendered.triple c qualifiers
      let rest' ← claims_loop store rest
      pure (r :: rest')

/-- Embeds the `claims` property:
`itertools.chain(*self.data["claims"].values())` streamed through the
generator loop. -/
def claims (store : List (String × Doc)) (d : Doc) : Except Err (List Rendered) :=
  claims_loop store ((d.claims.map Prod.snd).flatten)

end Entity

/-! ### Specification-style restatements (for the refinement claims) -/

/-- Error-respecting map used by the specification-style definitions. -/
def mapExcept {α β : Type} (f : α → Except Err β) : List α → Except Err (List β)
  | [] => .ok []
  | a :: rest => do
    let b ← f a
    let bs ← mapExcept f rest
    pure (b :: bs)

/-- Per-qualifier-id collection as the specification words it: the snaks
declared under the id, each normalized, survivors kept in order. -/
def qualifier_claims_spec (store : List (String × Doc)) (claim : Statement)
    (qid : String) : Except Err (List ParsedClaim) := do
  let snaks ← Entity.qualifier_snaks claim qid
  let parsed ← mapExcept (Entity.parse_snak store) snaks
  pure (parsed.filterMap (fun x => x))

/-- Per-statement normalization as §4.5 of the specification words it: run
the normalizer over the mainsnak first; if it survives, normalize the
qualifier snaks in qualifier declaration order, keep the non-`none`
results, and attach them as a trailing element exactly when some survive;
a statement whose mainsnak does not survive contributes nothing. -/
def normalize_statement_spec (store : List (String × Doc)) (claim : Statement) :
    Except Err (Option Entity.Rendered) := do
  match ← Entity.parse_snak store claim.mainsnak with
  | none => pure none
  | some c => do
    let qss ← mapExcept (qualifier_claims_spec store claim)
      (claim.qualifiersOrder.getD [])
    let qs := qss.flatten
    pure (some (if qs.isEmpty then Entity.Rendered.pair c
                else Entity.Rendered.triple c qs))

/-- The claims accessor as §4.6 of the specification words it: one
normalized result per statement whose mainsnak survives, in the document's
claim iteration order. -/
def claims_spec (store : List (String × Doc)) (d : Doc) :
    Except Err (List Entity.Rendered) := do
  let os ← mapExcept (normalize_statement_spec store) ((d.claims.map Prod.snd).flatten)
  pure (os.filterMap (fun x => x))

/-! ### Normalizer theorems (C5, C7, C8, C10) -/

/-- Successful bind splits into a successful first component. -/
theorem except_bind_ok {α β : Type} {x : Except Err α} {f : α → Except Err β}
    {y : β} (h : (x >>= f) = .ok y) : ∃ a, x = .ok a ∧ f a = .ok y := by
  cases x with
  | ok a => exact ⟨a, rfl, h⟩
  | error e =>
    simp only [show ((Except.error e : Except Err α) >>= f) = .error e from rfl] at h
    exact Except.noConfusion h

/-- A snak that passes both guards never normalizes to `none`: the trailing
`pure (some ...)` is reached or an exception propagates. -/
theorem parse_snak_value_not_none (store : List (String × Doc)) (snak : Snak)
    (h1 : snak.datatype ∈ INTERESTING_DATA_TYPES) (h2 : snak.snaktype = "value") :
    Entity.parse_snak store snak ≠ .ok none := by
  intro hcon
  unfold Entity.parse_snak at hcon
  rw [if_neg (by simpa using h1), if_neg (by simp [h2])] at hcon
  obtain ⟨p, -, hcon⟩ := except_bind_ok hcon
  obtain ⟨v, -, hcon⟩ := except_bind_ok hcon
  obtain ⟨w, -, hcon⟩ := except_bind_ok hcon
  exact Option.noConfusion (Except.ok.inj hcon)

/-- C7: the claim normalizer returns `none` exactly when the snak's datatype
is outside the interesting set or its snaktype is not `value`; such snaks
are silently dismissed (result `ok none`, no exception) and, by the `claims`
loop, skipped. -/
theorem parse_snak_none_iff (store : List (String × Doc)) (snak : Snak) :
    Entity.parse_snak store snak = .ok none ↔
      snak.datatype ∉ INTERESTING_DATA_TYPES ∨ snak.snaktype ≠ "value" := by
  constructor
  · intro h
    by_contra hcon
    push_neg at hcon
    exact parse_snak_value_not_none store snak hcon.1 hcon.2 h
  · intro h
    by_cases hmem : snak.datatype ∉ INTERESTING_DATA_TYPES
    · simp [Entity.parse_snak, hmem]
    · have hval : snak.snaktype ≠ "value" := h.resolve_left hmem
      simp [Entity.parse_snak, hmem, hval]

/-- A property entity with a label, for the normalizer theorems. -/
def docP10 : Doc := ⟨"P10", [(LANGUAGE, ⟨some "population"⟩)], []⟩

/-- An item entity with a label, for the normalizer theorems. -/
def docQ5 : Doc := ⟨"Q5", [(LANGUAGE, ⟨some "human"⟩)], []⟩

/-- Store backing the concrete normalizer evaluations. -/
def store8 : List (String × Doc) := [("P10", docP10), ("Q5", docQ5)]

/-- A value snak of datatype `quantity`. -/
def snakQuantity : Snak := ⟨"P10", "quantity", "value", some (.quantityRec "+42")⟩

/-- C8: the datatype dispatch of `parse_snak` compares against `"amount"`
while the allow-list names the numeric datatype `"quantity"`, so a quantity
snak falls through every branch and its value stays the raw datavalue
record, not the extracted amount string; time, string and item snaks do get
the claimed extraction.  This is the defect the specification flags
(§9, datatype naming inconsistency). -/
theorem parse_snak_quantity_returns_raw_record :
    Entity.parse_snak store8 snakQuantity
      = .ok (some (some "population", PyVal.record (DVV.quantityRec "+42")))
    ∧ PyVal.record (DVV.quantityRec "+42") ≠ PyVal.str "+42"
    ∧ Entity.parse_snak store8 ⟨"P10", "time", "value", some (.timeRec "+1947-08-15T00:00:00Z")⟩
      = .ok (some (some "population", PyVal.str "+1947-08-15T00:00:00Z"))
    ∧ Entity.parse_snak store8 ⟨"P10", "string", "value", some (.str "hello")⟩
      = .ok (some (some "population", PyVal.str "hello"))
    ∧ Entity.parse_snak store8 ⟨"P10", WIKIBASE_ITEM_DATA_TYPE, "value", some (.itemRec "Q5")⟩
      = .ok (some (some "population", PyVal.str "human")) :=
  ⟨rfl, by decide, rfl, rfl, rfl⟩

/-- A document whose only statement has an item-datatype mainsnak of
snaktype `novalue`, hence no `datavalue` key. -/
def docMainNovalue : Doc :=
  ⟨"Q90", [], [("P31", [⟨⟨"P31", WIKIBASE_ITEM_DATA_TYPE, "novalue", none⟩, none, none⟩])]⟩

/-- A document whose only statement is well-formed but carries an
item-datatype qualifier of snaktype `novalue` without a `datavalue` key. -/
def docQualNovalue : Doc :=
  ⟨"Q91", [],
   [("P2", [⟨⟨"P2", "string", "value", some (.str "x")⟩,
             some [("P3", [⟨"P3", WIKIBASE_ITEM_DATA_TYPE, "novalue", none⟩])],
             some ["P3"]⟩])]⟩

/-- C10: `load_dependencies` guards only the qualifier snaks with a
snaktype check.  On a mainsnak of the item datatype with snaktype
`novalue` (no `datavalue` key) it reads `snak["datavalue"]` unconditionally
and the extraction fails with `KeyError` instead of returning a dependency
list, while the same `novalue` shape in a qualifier is skipped cleanly. -/
theorem load_dependencies_mainsnak_unguarded :
    Entity.load_dependencies docMainNovalue = .error .keyError
    ∧ Entity.load_dependencies docQualNovalue = .ok ["P2"] :=
  ⟨rfl, rfl⟩

/-- One item-reference statement pointing at `ref`, for the cycle test. -/
def cycStatement (ref : String) : Statement :=
  ⟨⟨"P1", WIKIBASE_ITEM_DATA_TYPE, "value", some (.itemRec ref)⟩, none, none⟩

/-- An entity labelled `lab` whose single claim references `ref`. -/
def cycDoc (own ref lab : String) : Doc :=
  ⟨own, [(LANGUAGE, ⟨some lab⟩)], [("P1", [cycStatement ref])]⟩

/-- A store holding two entities that reference each other plus the shared
property entity: a reference cycle `Q1 → Q2 → Q1`. -/
def cycStore (la lb lp : String) : List (String × Doc) :=
  [("Q1", cycDoc "Q1" "Q2" la), ("Q2", cycDoc "Q2" "Q1" lb),
   ("P1", ⟨"P1", [(LANGUAGE, ⟨some lp⟩)], []⟩)]

/-- C5: rendering the claims of either member of a reference cycle
terminates and produces the expected single triple-free pair — resolving a
referenced entity's label reads only its `labels` field and never re-enters
claim rendering, so the mutual references cause no recursion at all.  The
rendering is a total function evaluated here on the cyclic pair for every
choice of labels. -/
theorem claims_cycle_terminates (la lb lp : String) :
    Entity.claims (cycStore la lb lp) (cycDoc "Q1" "Q2" la)
      = .ok [Entity.Rendered.pair (some lp, PyVal.str lb)]
    ∧ Entity.claims (cycStore la lb lp) (cycDoc "Q2" "Q1" lb)
      = .ok [Entity.Rendered.pair (some lp, PyVal.str la)] :=
  ⟨rfl, rfl⟩

/-- Witness for C5 at concrete labels. -/
theorem claims_cycle_terminates_witness :
    Entity.claims (cycStore "Nehru" "India" "country") (cycDoc "Q1" "Q2" "Nehru")
      = .ok [Entity.Rendered.pair (some "country", PyVal.str "India")] :=
  (claims_cycle_terminates "Nehru" "India" "country").1

/-- Witness for C7: an `external-id` snak (outside the interesting set)
normalizes to `none` without an exception. -/
theorem parse_snak_none_iff_witness :
    Entity.parse_snak store8 ⟨"P10", "external-id", "value", none⟩ = .ok none :=
  (parse_snak_none_iff store8 ⟨"P10", "external-id", "value", none⟩).mpr
    (Or.inl (by decide))

/-! ### Dependency extractor theorems (C6) -/

/-- A plain string-datatype statement under property `P1`. -/
def stmtP1 : Statement := ⟨⟨"P1", "string", "value", some (.str "a")⟩, none, none⟩

/-- A document containing the same property twice. -/
def docDupDeps : Doc := ⟨"Q7", [], [("P1", [stmtP1, stmtP1])]⟩

/-- C6 counterexample: two statements under the same property make the
extracted dependency list carry `P1` twice — `load_dependencies`
accumulates a plain list and never deduplicates, so its result is not the
deduplicated union the claim describes. -/
theorem load_dependencies_not_deduplicated :
    Entity.load_dependencies docDupDeps = .ok ["P1", "P1"]
    ∧ ¬ (["P1", "P1"] : List String).Nodup :=
  ⟨rfl, by decide⟩

/-- Bind of a success reduces to the continuation. -/
@[simp] theorem ok_bind {α β : Type} (a : α) (f : α → Except Err β) :
    ((Except.ok a : Except Err α) >>= f) = f a := rfl

/-- Bind of a failure propagates the failure. -/
@[simp] theorem error_bind {α β : Type} (e : Err) (f : α → Except Err β) :
    ((Except.error e : Except Err α) >>= f) = .error e := rfl

/-- Map over a success. -/
@[simp] theorem except_map_ok {α β : Type} (f : α → β) (a : α) :
    (Except.map f (Except.ok a : Except Err α)) = .ok (f a) := rfl

/-- Map over a failure. -/
@[simp] theorem except_map_error {α β : Type} (f : α → β) (e : Err) :
    (Except.map f (Except.error e : Except Err α)) = .error e := rfl

/-- Whether a snak's datavalue holds an item record (so that reading
`["value"]["id"]` from it succeeds). -/
def snak_item_wf (s : Snak) : Bool :=
  match s.datavalue with
  | some (.itemRec _) => true
  | _ => false

/-- An item-record datavalue extracted from the well-formedness flag. -/
theorem snak_item_wf_elim {s : Snak} (h : snak_item_wf s = true) :
    ∃ i, s.datavalue = some (.itemRec i) := by
  cases hd : s.datavalue with
  | none => simp [snak_item_wf, hd] at h
  | some v =>
    cases v with
    | itemRec i => exact ⟨i, rfl⟩
    | str a => simp [snak_item_wf, hd] at h
    | quantityRec a => simp [snak_item_wf, hd] at h
    | timeRec a => simp [snak_item_wf, hd] at h

/-- The item datatype is in the allow-list. -/
theorem item_interesting : WIKIBASE_ITEM_DATA_TYPE ∈ INTERESTING_DATA_TYPES := by
  decide

/-- Pure in the `Except` monad is success. -/
@[simp] theorem except_pure {α : Type} (a : α) :
    (pure a : Except Err α) = .ok a := rfl

/-- Referenced item id of a snak as a list: `[i]` when the datavalue holds
an item record, `[]` otherwise. -/
def itemIdList (s : Snak) : List String :=
  match s.datavalue with
  | some (.itemRec i) => [i]
  | _ => []

/-- Amended-C6 wording of one qualifier snak's contribution to the
dependency list. -/
def qualifier_deps_spec (q : Snak) : List String :=
  if q.snaktype = "value" then
    [q.property]
    ++ (if q.datatype = WIKIBASE_ITEM_DATA_TYPE then itemIdList q else [])
  else []

/-- Amended-C6 wording of one statement's contribution: nothing when the
mainsnak datatype is uninteresting (its qualifiers are then skipped too);
otherwise the mainsnak property, the referenced item id for the item
datatype, then the per-qualifier contributions in dict order. -/
def statement_deps_spec (claim : Statement) : List String :=
  if claim.mainsnak.datatype ∈ INTERESTING_DATA_TYPES then
    [claim.mainsnak.property]
    ++ (if claim.mainsnak.datatype = WIKIBASE_ITEM_DATA_TYPE then
          itemIdList claim.mainsnak
        else [])
    ++ (((claim.qualifiers.getD []).map Prod.snd).flatten.map qualifier_deps_spec).flatten
  else []

/-- Amended-C6 wording of a whole document's dependency list: the
concatenation, in document traversal order, of every statement's
contribution — duplicates included. -/
def dependencies_spec (d : Doc) : List String :=
  ((d.claims.map Prod.snd).flatten.map statement_deps_spec).flatten

/-- Well-formedness needed for extraction to succeed: every snak the
extractor dereferences an item id from actually holds an item record. -/
abbrev deps_wf (d : Doc) : Prop :=
  ∀ claim ∈ (d.claims.map Prod.snd).flatten,
    claim.mainsnak.datatype ∈ INTERESTING_DATA_TYPES →
      (claim.mainsnak.datatype = WIKIBASE_ITEM_DATA_TYPE →
        snak_item_wf claim.mainsnak = true)
      ∧ ∀ q ∈ ((claim.qualifiers.getD []).map Prod.snd).flatten,
          q.snaktype = "value" → q.datatype = WIKIBASE_ITEM_DATA_TYPE →
            snak_item_wf q = true

/-- The qualifier loop of the extractor accumulates exactly the
qualifier-wise contributions. -/
theorem load_dep_qualifiers_loop_spec :
    ∀ (qs : List Snak) (deps : List String),
      (∀ q ∈ qs, q.snaktype = "value" → q.datatype = WIKIBASE_ITEM_DATA_TYPE →
        snak_item_wf q = true) →
      Entity.load_dep_qualifiers_loop qs deps
        = .ok (deps ++ (qs.map qualifier_deps_spec).flatten) := by
  intro qs
  induction qs with
  | nil => intro deps _; simp [Entity.load_dep_qualifiers_loop]
  | cons q rest ih =>
    intro deps h
    have hrest := fun q' hq' => h q' (List.mem_cons_of_mem q hq')
    by_cases hval : q.snaktype = "value"
    · by_cases hitem : q.datatype = WIKIBASE_ITEM_DATA_TYPE
      · obtain ⟨i, hi⟩ := snak_item_wf_elim (h q (List.mem_cons_self q rest) hval hitem)
        simp [Entity.load_dep_qualifiers_loop, Entity.load_dep_qualifier, hval,
          hitem, Snak.datavalue_value, hi, DVV.subscript_id, ih _ hrest,
          qualifier_deps_spec, itemIdList]
      · simp [Entity.load_dep_qualifiers_loop, Entity.load_dep_qualifier, hval,
          hitem, ih _ hrest, qualifier_deps_spec]
    · simp [Entity.load_dep_qualifiers_loop, Entity.load_dep_qualifier, hval,
        ih _ hrest, qualifier_deps_spec]

/-- One statement's extractor step accumulates exactly its specified
contribution. -/
theorem load_dep_statement_spec (deps : List String) (claim : Statement)
    (hm : claim.mainsnak.datatype ∈ INTERESTING_DATA_TYPES →
      (claim.mainsnak.datatype = WIKIBASE_ITEM_DATA_TYPE →
        snak_item_wf claim.mainsnak = true)
      ∧ ∀ q ∈ ((claim.qualifiers.getD []).map Prod.snd).flatten,
          q.snaktype = "value" → q.datatype = WIKIBASE_ITEM_DATA_TYPE →
            snak_item_wf q = true) :
    Entity.load_dep_statement deps claim = .ok (deps ++ statement_deps_spec claim) := by
  by_cases hint : claim.mainsnak.datatype ∈ INTERESTING_DATA_TYPES
  · obtain ⟨hitemwf, hq⟩ := hm hint
    by_cases hitem : claim.mainsnak.datatype = WIKIBASE_ITEM_DATA_TYPE
    · obtain ⟨i, hi⟩ := snak_item_wf_elim (hitemwf hitem)
      simp [Entity.load_dep_statement, hint, hitem, Snak.datavalue_value, hi,
        DVV.subscript_id, load_dep_qualifiers_loop_spec _ _ hq,
        statement_deps_spec, itemIdList, item_interesting]
    · simp [Entity.load_dep_statement, hint, hitem,
        load_dep_qualifiers_loop_spec _ _ hq, statement_deps_spec]
  · simp [Entity.load_dep_statement, hint, statement_deps_spec]

/-- The statement loop of the extractor accumulates the statement-wise
contributions in order. -/
theorem load_dep_statements_loop_spec :
    ∀ (stmts : List Statement) (deps : List String),
      (∀ claim ∈ stmts,
        claim.mainsnak.datatype ∈ INTERESTING_DATA_TYPES →
          (claim.mainsnak.datatype = WIKIBASE_ITEM_DATA_TYPE →
            snak_item_wf claim.mainsnak = true)
          ∧ ∀ q ∈ ((claim.qualifiers.getD []).map Prod.snd).flatten,
              q.snaktype = "value" → q.datatype = WIKIBASE_ITEM_DATA_TYPE →
                snak_item_wf q = true) →
      Entity.load_dep_statements_loop stmts deps
        = .ok (deps ++ (stmts.map statement_deps_spec).flatten) := by
  intro stmts
  induction stmts with
  | nil => intro deps _; simp [Entity.load_dep_statements_loop]
  | cons claim rest ih =>
    intro deps h
    simp [Entity.load_dep_statements_loop,
      load_dep_statement_spec deps claim (h claim (List.mem_cons_self claim rest)),
      ih _ (fun c hc => h c (List.mem_cons_of_mem claim hc))]

/-- The claim-group loop of the extractor accumulates the contributions of
the flattened statement sequence. -/
theorem load_dep_groups_loop_spec :
    ∀ (groups : List (String × List Statement)) (deps : List String),
      (∀ claim ∈ (groups.map Prod.snd).flatten,
        claim.mainsnak.datatype ∈ INTERESTING_DATA_TYPES →
          (claim.mainsnak.datatype = WIKIBASE_ITEM_DATA_TYPE →
            snak_item_wf claim.mainsnak = true)
          ∧ ∀ q ∈ ((claim.qualifiers.getD []).map Prod.snd).flatten,
              q.snaktype = "value" → q.datatype = WIKIBASE_ITEM_DATA_TYPE →
                snak_item_wf q = true) →
      Entity.load_dep_groups_loop groups deps
        = .ok (deps ++ ((groups.map Prod.snd).flatten.map statement_deps_spec).flatten) := by
  intro groups
  induction groups with
  | nil => intro deps _; simp [Entity.load_dep_groups_loop]
  | cons g rest ih =>
    intro deps h
    simp only [List.map_cons, List.flatten_cons] at h
    simp [Entity.load_dep_groups_loop,
      load_dep_statements_loop_spec g.2 deps
        (fun c hc => h c (List.mem_append_left _ hc)),
      ih _ (fun c hc => h c (List.mem_append_right _ hc))]

/-- C6 amended: on documents where every dereferenced item snak holds an
item record, the extractor returns — without deduplication — exactly the
traversal-ordered concatenation of: for each statement whose mainsnak
datatype is interesting, its mainsnak property, the referenced item id when
the mainsnak has the item datatype, and for each of its qualifier snaks of
snaktype `value` its property plus the referenced item id when it has the
item datatype; the resulting list is then resolved in one single
`get_entities` call. -/
theorem load_dependencies_spec_list (d : Doc) (h : deps_wf d) :
    Entity.load_dependencies d = .ok (dependencies_spec d) := by
  unfold Entity.load_dependencies dependencies_spec
  rw [load_dep_groups_loop_spec d.claims [] h]
  rfl

/-- A document exercising every branch of the extractor for the C6
witness. -/
def docW6 : Doc :=
  ⟨"Q8", [],
   [("P31", [⟨⟨"P31", WIKIBASE_ITEM_DATA_TYPE, "value", some (.itemRec "Q5")⟩,
              some [("P5", [⟨"P5", WIKIBASE_ITEM_DATA_TYPE, "value", some (.itemRec "Q6")⟩,
                            ⟨"P5", "string", "novalue", none⟩])],
              some ["P5"]⟩]),
    ("P1", [stmtP1])]⟩

/-- Witness for amended C6 at a concrete document with an item mainsnak,
item and skipped qualifiers, and a second claim group. -/
theorem load_dependencies_spec_list_witness :
    deps_wf docW6
    ∧ Entity.load_dependencies docW6 = .ok (dependencies_spec docW6)
    ∧ dependencies_spec docW6 = ["P31", "Q5", "P5", "Q6", "P1"] :=
  ⟨by decide, load_dependencies_spec_list docW6 (by decide), by decide⟩

/-! ### Claims accessor refinement (C9) -/

/-- The inner qualifier-snak loop equals mapping the normalizer over the
snaks and appending the surviving results to the accumulator. -/
theorem claims_snaks_loop_spec (store : List (String × Doc)) :
    ∀ (ss : List Snak) (acc : List ParsedClaim),
      Entity.claims_snaks_loop store ss acc
        = Except.map (fun parsed => acc ++ parsed.filterMap (fun x => x))
            (mapExcept (Entity.parse_snak store) ss) := by
  intro ss
  induction ss with
  | nil => intro acc; simp [Entity.claims_snaks_loop, mapExcept]
  | cons s rest ih =>
    intro acc
    cases hq : Entity.parse_snak store s with
    | error e => simp [Entity.claims_snaks_loop, mapExcept, hq]
    | ok q =>
      cases hrest : mapExcept (Entity.parse_snak store) rest with
      | error e =>
        simp [Entity.claims_snaks_loop, mapExcept, hq, hrest, ih]
      | ok parsed =>
        cases q with
        | none => simp [Entity.claims_snaks_loop, mapExcept, hq, hrest, ih]
        | some c =>
          simp [Entity.claims_snaks_loop, mapExcept, hq, hrest, ih]

/-- The qualifier-id loop equals mapping the per-qualifier collection over
the declaration order and appending the flattened survivors. -/
theorem claims_qualifiers_loop_spec (store : List (String × Doc)) (claim : Statement) :
    ∀ (qids : List String) (acc : List ParsedClaim),
      Entity.claims_qualifiers_loop store claim qids acc
        = Except.map (fun qss => acc ++ qss.flatten)
            (mapExcept (qualifier_claims_spec store claim) qids) := by
  intro qids
  induction qids with
  | nil => intro acc; simp [Entity.claims_qualifiers_loop, mapExcept]
  | cons qid rest ih =>
    intro acc
    have hunfold : Entity.claims_qualifiers_loop store claim (qid :: rest) acc
        = (Entity.qualifier_snaks claim qid >>= fun snaks =>
           Entity.claims_snaks_loop store snaks acc >>= fun acc' =>
           Entity.claims_qualifiers_loop store claim rest acc') := rfl
    have hmap : mapExcept (qualifier_claims_spec store claim) (qid :: rest)
        = (qualifier_claims_spec store claim qid >>= fun b =>
           mapExcept (qualifier_claims_spec store claim) rest >>= fun bs =>
           pure (b :: bs)) := rfl
    rw [hunfold, hmap]
    cases hsn : Entity.qualifier_snaks claim qid with
    | error e =>
      simp only [error_bind, qualifier_claims_spec, hsn, except_map_error]
    | ok snaks =>
      simp only [ok_bind]
      rw [claims_snaks_loop_spec store snaks acc]
      cases hp : mapExcept (Entity.parse_snak store) snaks with
      | error e =>
        simp only [hp, except_map_error, error_bind, qualifier_claims_spec, hsn,
          ok_bind, except_map_error]
      | ok parsed =>
        simp only [hp, except_map_ok, ok_bind]
        rw [ih (acc ++ parsed.filterMap (fun x => x))]
        simp only [qualifier_claims_spec, hsn, ok_bind, hp, pure_bind]
        cases hrest : mapExcept (qualifier_claims_spec store claim) rest with
        | error e =>
          simp only [except_map_error, error_bind]
        | ok qss =>
          simp only [ok_bind, pure_bind, except_map_ok, except_pure,
            List.flatten_cons, List.append_assoc]

/-- C9: the `claims` generator equals its specification-style restatement:
one normalized result per statement whose mainsnak survives normalization
(run first), in the document's claim iteration order; the qualifier snaks
are normalized in declaration order and the non-`none` results form the
trailing triple element exactly when at least one survives, the tuple
staying a pair otherwise. -/
theorem claims_eq_claims_spec (store : List (String × Doc)) (d : Doc) :
    Entity.claims store d = claims_spec store d := by
  show Entity.claims_loop store ((d.claims.map Prod.snd).flatten)
    = (mapExcept (normalize_statement_spec store) ((d.claims.map Prod.snd).flatten)
        >>= fun os => pure (os.filterMap (fun x => x)))
  generalize (d.claims.map Prod.snd).flatten = stmts
  induction stmts with
  | nil => rfl
  | cons claim rest ih =>
    have hunfold : Entity.claims_loop store (claim :: rest)
        = (Entity.parse_snak store claim.mainsnak >>= fun snak =>
            match snak with
            | none => Entity.claims_loop store rest
            | some c => do
              let qualifiers ← Entity.claims_qualifiers_loop store claim
                (claim.qualifiersOrder.getD []) []
              let r := if qualifiers.isEmpty then Entity.Rendered.pair c
                       else Entity.Rendered.triple c qualifiers
              let rest' ← Entity.claims_loop store rest
              pure (r :: rest')) := rfl
    have hmap : mapExcept (normalize_statement_spec store) (claim :: rest)
        = (normalize_statement_spec store claim >>= fun b =>
           mapExcept (normalize_statement_spec store) rest >>= fun bs =>
           pure (b :: bs)) := rfl
    rw [hunfold, hmap]
    cases hm : Entity.parse_snak store claim.mainsnak with
    | error e =>
      simp only [error_bind, normalize_statement_spec, hm]
    | ok m =>
      cases m with
      | none =>
        simp only [ok_bind, normalize_statement_spec, hm, pure_bind]
        rw [ih]
        cases hrest : mapExcept (normalize_statement_spec store) rest with
        | error e => simp only [error_bind]
        | ok os =>
          simp only [ok_bind, pure_bind, except_pure, List.filterMap_cons]
      | some c =>
        simp only [ok_bind, normalize_statement_spec, hm, pure_bind]
        rw [claims_qualifiers_loop_spec store claim (claim.qualifiersOrder.getD []) []]
        cases hq : mapExcept (qualifier_claims_spec store claim)
            (claim.qualifiersOrder.getD []) with
        | error e =>
          simp only [except_map_error, error_bind]
        | ok qss =>
          simp only [except_map_ok, ok_bind, pure_bind, List.nil_append]
          rw [ih]
          cases hrest : mapExcept (normalize_statement_spec store) rest with
          | error e => simp only [error_bind]
          | ok os =>
            simp only [ok_bind, pure_bind, except_pure, List.filterMap_cons]

/-- A store labelling every entity `docW6` references. -/
def storeW9 : List (String × Doc) :=
  [("P31", ⟨"P31", [(LANGUAGE, ⟨some "instance of"⟩)], []⟩),
   ("Q5", docQ5),
   ("Q6", ⟨"Q6", [(LANGUAGE, ⟨some "thing"⟩)], []⟩),
   ("P5", ⟨"P5", [(LANGUAGE, ⟨some "qual"⟩)], []⟩),
   ("P1", ⟨"P1", [(LANGUAGE, ⟨some "name"⟩)], []⟩)]

/-- Witness for C9 at a concrete store and document with qualifiers: the
loop and its specification agree, on a value whose first statement carries a
surviving qualifier (a triple) and whose second yields a bare pair. -/
theorem claims_eq_claims_spec_witness :
    Entity.claims storeW9 docW6 = claims_spec storeW9 docW6
    ∧ claims_spec storeW9 docW6
      = .ok [Entity.Rendered.triple (some "instance of", PyVal.str "human")
              [(some "qual", PyVal.str "thing")],
             Entity.Rendered.pair (some "name", PyVal.str "a")] :=
  ⟨claims_eq_claims_spec storeW9 docW6, rfl⟩

end Wikidata
